import Mathlib

/-!
Verification of the FinnBot transaction-intent classifier, pending-confirmation
state machine and 50/30/20 budget tracker (`simple_bot.py`).

The Python source is shallowly embedded: message texts are `List Char`
(Python `str`), amounts are `ℚ` (an exact model of Python's float arithmetic;
division is exact where Python rounds, which no claim here depends on), and
the per-user mutable attributes of `SimpleFinnBot` are gathered into an
explicit `BotState` record threaded through the handlers.  Regular expressions
used by the source are hand-compiled into character scanners that implement
the exact backtracking behaviour of the Python patterns on their inputs.
-/

namespace FinnBot

/-- Message text, modelled as a list of characters (Python `str`). -/
abbrev Text := List Char

/-- Coerce a Lean string literal to `Text`. -/
def str (s : String) : Text := s.toList

/-- Python whitespace (ASCII range), as recognised by `str.strip`, the regex
class `\s`, and `float()` parsing.  Non-ASCII whitespace is not modelled. -/
def isPySpace (c : Char) : Bool :=
  c = ' ' || c = '\t' || c = '\n' || c = '\r' || c = '\x0b' || c = '\x0c'

/-- Python `str.strip()`. -/
def pyStrip (t : Text) : Text :=
  ((t.dropWhile isPySpace).reverse.dropWhile isPySpace).reverse

/-- Python `c in text` for a single character `c`. -/
def containsChar (t : Text) (c : Char) : Bool := t.any (· = c)

/-- Python `ab in text` for a two-character marker such as `++` or `+-`. -/
def containsPair (a b : Char) : Text → Bool
  | x :: y :: rest => (x = a && y = b) || containsPair a b (y :: rest)
  | _ => false

/-- Python substring test `pat in text` for arbitrary `pat`. -/
def isSubtext (pat : Text) : Text → Bool
  | [] => pat.isEmpty
  | c :: rest => pat.isPrefixOf (c :: rest) || isSubtext pat rest

/-- Python `str.isdigit()` restricted to ASCII digits. -/
def pyIsDigit (t : Text) : Bool := !t.isEmpty && t.all Char.isDigit

/-- Numeric value of a digit string, as computed by Python `int(text)`. -/
def natOfDigits (t : Text) : Nat :=
  t.foldl (fun n c => 10 * n + (c.toNat - '0'.toNat)) 0

/-- Python `str.lower()` (ASCII model; the Cyrillic strings in the source
never take part in the logic the claims are about). -/
def toLowerText (t : Text) : Text := t.map Char.toLower

/-- Word character for the regex `\b` boundary: `[A-Za-z0-9_]` (ASCII model
of `\w`). -/
def isWordChar (c : Char) : Bool := c.isAlpha || c.isDigit || c = '_'

/-- Split a text at the longest prefix satisfying `p`. -/
def spanP (p : Char → Bool) (t : Text) : Text × Text :=
  (t.takeWhile p, t.dropWhile p)

/-- Continue reading a Python numeric-literal digit run after at least one
digit has been read: further digits, with single underscores allowed between
digits (underscores are dropped from the returned digits). -/
def digitsTail : Text → Text × Text
  | [] => ([], [])
  | c :: rest =>
    if c.isDigit then
      let (ds, r) := digitsTail rest
      (c :: ds, r)
    else if c = '_' then
      match rest with
      | d :: rest2 =>
        if d.isDigit then
          let (ds, r) := digitsTail rest2
          (d :: ds, r)
        else ([], c :: rest)
      | [] => ([], [c])
    else ([], c :: rest)

/-- Read a digit run in Python numeric-literal syntax (digits with optional
single underscores between digits).  Returns the digits and the rest. -/
def readDigitsU (t : Text) : Text × Text :=
  match t with
  | c :: rest =>
    if c.isDigit then
      let (ds, r) := digitsTail rest
      (c :: ds, r)
    else ([], t)
  | [] => ([], [])

/-- Value of an integer digit string together with a fractional digit string. -/
def decimalValue (ip fp : Text) : ℚ :=
  (natOfDigits ip : ℚ) + (natOfDigits fp : ℚ) / ((10 : ℚ) ^ fp.length)

/-- Parse the optional exponent suffix of a Python float literal and apply it
to the already-parsed mantissa `v`.  The whole rest must be consumed. -/
def pyFloatExp (v : ℚ) (r : Text) : Option ℚ :=
  match r with
  | [] => some v
  | e :: rr =>
    if e = 'e' || e = 'E' then
      let (eneg, rr1) : Bool × Text :=
        match rr with
        | '+' :: z => (false, z)
        | '-' :: z => (true, z)
        | _ => (false, rr)
      let (ed, rr2) := readDigitsU rr1
      if ed.isEmpty || !rr2.isEmpty then none
      else some (if eneg then v / (10 : ℚ) ^ natOfDigits ed
                 else v * (10 : ℚ) ^ natOfDigits ed)
    else none

/-- Python `float(text)`: strips surrounding whitespace, takes an optional
single sign, then a decimal mantissa with optional exponent.  Python also
accepts the special literals `inf`, `infinity` and `nan` (case-insensitive);
their IEEE values are not representable in `ℚ`, so they are embedded as the
placeholder value `0` — no claim below depends on the numeric value produced
by a special literal, only on the parse succeeding.  Returns `none` where
Python raises `ValueError`. -/
def pyFloat? (t0 : Text) : Option ℚ :=
  let t := pyStrip t0
  let (neg, t1) : Bool × Text :=
    match t with
    | '+' :: r => (false, r)
    | '-' :: r => (true, r)
    | _ => (false, t)
  if toLowerText t1 = str "inf" || toLowerText t1 = str "infinity"
      || toLowerText t1 = str "nan" then
    some 0
  else
    let (ip, r1) := readDigitsU t1
    match r1 with
    | '.' :: r2 =>
      let (fp, r3) := readDigitsU r2
      if ip.isEmpty && fp.isEmpty then none
      else
        let v := decimalValue ip fp
        pyFloatExp (if neg then -v else v) r3
    | _ =>
      if ip.isEmpty then none
      else pyFloatExp (if neg then -(natOfDigits ip : ℚ) else (natOfDigits ip : ℚ)) r1

/-- One-character sign class `[+-]`. -/
def isSign (c : Char) : Bool := c = '+' || c = '-'

/-- Decimal-separator class `[.,]`. -/
def isSep (c : Char) : Bool := c = '.' || c = ','

/-- Try the regex alternative `[+-]+\s*(\d+[.,]\d{1,2})` at the head of `t`
(first alternative of the amount pattern in `extract_amount`).  Returns the
captured group and the rest of the text after the match. -/
def tryAmtSigned (t : Text) : Option (Text × Text) :=
  let (signs, r1) := spanP isSign t
  if signs.isEmpty then none
  else
    let (_, r2) := spanP isPySpace r1
    let (d1, r3) := spanP Char.isDigit r2
    if d1.isEmpty then none
    else
      match r3 with
      | sep :: r4 =>
        if isSep sep then
          let (d2, r5) := spanP Char.isDigit r4
          if d2.isEmpty then none
          else some (d1 ++ sep :: d2.take 2, d2.drop 2 ++ r5)
        else none
      | [] => none

/-- Try the regex alternative `\b(\d+[.,]\d{1,2})\b` at the head of `t`,
where `prevWord` says whether the character before `t` is a word character
(backtracking inside `\d{1,2}` can never rescue a failed trailing `\b`, since
any shorter take is followed by a digit, so the greedy take is exact). -/
def tryAmtBare (prevWord : Bool) (t : Text) : Option (Text × Text) :=
  if prevWord then none
  else
    let (d1, r1) := spanP Char.isDigit t
    if d1.isEmpty then none
    else
      match r1 with
      | sep :: r2 =>
        if isSep sep then
          let (d2, r3) := spanP Char.isDigit r2
          if d2.isEmpty then none
          else
            let rest := d2.drop 2 ++ r3
            match rest with
            | [] => some (d1 ++ sep :: d2.take 2, [])
            | c :: _ =>
              if isWordChar c then none
              else some (d1 ++ sep :: d2.take 2, rest)
        else none
      | [] => none

/-- Scanner for `re.findall` of the amount pattern
`[+-]+\s*(\d+[.,]\d{1,2})|\b(\d+[.,]\d{1,2})\b`: at each position try the
first alternative, then the second; on a match continue after it (its last
character is always a digit, hence a word character), otherwise advance one
character.  `fuel` is at least the length of the text. -/
def scanAmounts : Nat → Bool → Text → List Text
  | 0, _, _ => []
  | _, _, [] => []
  | fuel + 1, prevWord, c :: rest =>
    match tryAmtSigned (c :: rest) with
    | some (g, r) => g :: scanAmounts fuel true r
    | none =>
      match tryAmtBare prevWord (c :: rest) with
      | some (g, r) => g :: scanAmounts fuel true r
      | none => scanAmounts fuel (isWordChar c) rest

/-- Value of a captured amount group of shape `\d+[.,]\d{1,2}` (the source
replaces `,` by `.` and calls `float`). -/
def parseAmtGroup (g : Text) : ℚ :=
  let (ip, r) := spanP Char.isDigit g
  match r with
  | _ :: fp => decimalValue ip fp
  | [] => (natOfDigits ip : ℚ)

/-- Python `max` over a list of values (none if empty). -/
def maxQ? : List ℚ → Option ℚ
  | [] => none
  | x :: xs => some (xs.foldl max x)

/-- Scanner for `re.findall(r'\b(\d+)\b', text)`: maximal digit runs whose
neighbours on both sides are not word characters (a shorter take of the
greedy `\d+` is always followed by a digit, so it can never satisfy `\b`). -/
def scanWholes : Nat → Bool → Text → List Text
  | 0, _, _ => []
  | _, _, [] => []
  | fuel + 1, prevWord, c :: rest =>
    if c.isDigit && !prevWord then
      let (run, r) := spanP Char.isDigit (c :: rest)
      let okEnd := match r with | [] => true | d :: _ => !isWordChar d
      if okEnd then run :: scanWholes fuel true r
      else scanWholes fuel true r
    else scanWholes fuel (isWordChar c) rest

/-- Scanner for `re.findall(r'\b[a-zA-Z]{3,}\b', text)` (the learning step):
maximal alphabetic runs of length at least 3 bounded by non-word characters. -/
def scanWords : Nat → Bool → Text → List Text
  | 0, _, _ => []
  | _, _, [] => []
  | fuel + 1, prevWord, c :: rest =>
    if c.isAlpha && !prevWord then
      let (run, r) := spanP Char.isAlpha (c :: rest)
      let okEnd := match r with | [] => true | d :: _ => !isWordChar d
      if decide (3 ≤ run.length) && okEnd then run :: scanWords fuel true r
      else scanWords fuel true r
    else scanWords fuel (isWordChar c) rest

/-- All alphabetic tokens of length at least 3 of `text.lower()`, as matched
by `re.findall(r'\b[a-zA-Z]{3,}\b', text.lower())` in `process_callback`. -/
def extractWords (t : Text) : List Text :=
  scanWords t.length false (toLowerText t)

inductive TransType
  | income
  | expense
  | savings
  | debt
  | debt_return
  | savings_withdraw
deriving DecidableEq, Repr

/-- Result record of `SimpleFinnBot.extract_amount`. -/
structure ExtractOut where
  amount : Option ℚ
  is_income : Bool
  is_debt : Bool
  is_savings : Bool
  is_debt_return : Bool
  is_savings_withdraw : Bool
deriving DecidableEq, Repr

/-- The three amount-extraction stages of `extract_amount`, tried in order:
(1) the decimal-amount regex, taking the maximum of all parsed matches;
(2) `float` of the stripped text with every `+` and `-` removed;
(3) the bare-integer regex, taking the maximum. -/
def extractAmountValue (t : Text) : Option ℚ :=
  match maxQ? ((scanAmounts t.length false t).map parseAmtGroup) with
  | some a => some a
  | none =>
    match pyFloat? ((pyStrip t).filter (fun c => !(c = '+' || c = '-'))) with
    | some a => some a
    | none => maxQ? ((scanWholes t.length false t).map (fun r => (natOfDigits r : ℚ)))

/-- `SimpleFinnBot.extract_amount`: the five kind flags plus the extracted
amount (`none` models Python's `None`). -/
def extract_amount (t : Text) : ExtractOut :=
  let is_savings := containsPair '+' '+' t
  let is_debt_return := containsPair '+' '-' t
  let is_savings_withdraw := containsPair '-' '+' t
  let is_income := containsChar t '+' && !is_savings && !is_debt_return
      && !is_savings_withdraw
  let is_debt := (match pyStrip t with | '-' :: _ => true | _ => false)
      && !is_savings_withdraw
  ⟨extractAmountValue t, is_income, is_debt, is_savings, is_debt_return,
    is_savings_withdraw⟩

/-- Scanner for `re.sub(r'(\d+(?:\.\d+)?)%', r'*(\1/100)', expression)`:
every number (optionally with a fractional part) directly followed by `%`
becomes `*(number/100)`.  A failed match at the head of a digit run can never
succeed at a later position inside the same run, so the scanner may emit the
whole run and continue after it.  `fuel` is at least the length of the text. -/
def percentSub : Nat → Text → Text
  | 0, t => t
  | _, [] => []
  | fuel + 1, c :: rest =>
    if c.isDigit then
      let (d1, r1) := spanP Char.isDigit (c :: rest)
      match r1 with
      | '.' :: r2 =>
        let (d2, r3) := spanP Char.isDigit r2
        if d2.isEmpty then d1 ++ percentSub fuel r1
        else
          match r3 with
          | '%' :: r4 =>
            str "*(" ++ d1 ++ '.' :: d2 ++ str "/100)" ++ percentSub fuel r4
          | _ => d1 ++ percentSub fuel r1
      | '%' :: r4 => str "*(" ++ d1 ++ str "/100)" ++ percentSub fuel r4
      | _ => d1 ++ percentSub fuel r1
    else c :: percentSub fuel rest

/-- Python `text.replace(ab, c)` for a two-character pattern and a
one-character replacement: left-to-right, non-overlapping. -/
def replacePair (a b c : Char) : Text → Text
  | x :: y :: rest =>
    if x = a && y = b then c :: replacePair a b c rest
    else x :: replacePair a b c (y :: rest)
  | t => t

/-- Character whitelist of `calculate_expression`'s safety check
`^[\d+\-*/().\s]+$`. -/
def calcAllowed (c : Char) : Bool :=
  c.isDigit || c = '+' || c = '-' || c = '*' || c = '/' || c = '(' || c = ')'
    || c = '.' || isPySpace c

/-- Parse a numeric literal: digits with an optional fractional part, or a
fractional part alone (`5`, `5.`, `.5`, `5.25`). -/
def parseNumber (t : Text) : Option (ℚ × Text) :=
  let (ip, r1) := spanP Char.isDigit t
  match r1 with
  | '.' :: r2 =>
    let (fp, r3) := spanP Char.isDigit r2
    if ip.isEmpty && fp.isEmpty then none
    else some (decimalValue ip fp, r3)
  | _ =>
    if ip.isEmpty then none
    else some ((natOfDigits ip : ℚ), r1)

mutual

/-- Expression layer of the arithmetic evaluator modelling Python `eval` on
the whitelisted character set: a sum/difference of terms.  Division is exact
rational division (Python uses float division; no claim depends on the
value), division by zero fails like Python's `ZeroDivisionError`, and the
rare whitelisted spellings this grammar rejects (`**` — also produced by the
percentage rewrite when `value%` follows a `*` — and `//`) fail where
Python's `eval` would compute a power or a floor division: conservative, and
irrelevant to every claim, which never depends on a successful evaluation's
value. -/
def parseExpr : Nat → Text → Option (ℚ × Text)
  | 0, _ => none
  | fuel + 1, t =>
    match parseTerm fuel t with
    | none => none
    | some (v, r) => parseExprLoop fuel v r

/-- Iterate `(+ term | - term)*`. -/
def parseExprLoop : Nat → ℚ → Text → Option (ℚ × Text)
  | 0, _, _ => none
  | fuel + 1, v, t =>
    match t.dropWhile isPySpace with
    | '+' :: r =>
      match parseTerm fuel r with
      | none => none
      | some (w, r2) => parseExprLoop fuel (v + w) r2
    | '-' :: r =>
      match parseTerm fuel r with
      | none => none
      | some (w, r2) => parseExprLoop fuel (v - w) r2
    | t' => some (v, t')

/-- A product/quotient of factors. -/
def parseTerm : Nat → Text → Option (ℚ × Text)
  | 0, _ => none
  | fuel + 1, t =>
    match parseFactor fuel t with
    | none => none
    | some (v, r) => parseTermLoop fuel v r

/-- Iterate `(* factor | / factor)*`, failing on division by zero. -/
def parseTermLoop : Nat → ℚ → Text → Option (ℚ × Text)
  | 0, _, _ => none
  | fuel + 1, v, t =>
    match t.dropWhile isPySpace with
    | '*' :: r =>
      match parseFactor fuel r with
      | none => none
      | some (w, r2) => parseTermLoop fuel (v * w) r2
    | '/' :: r =>
      match parseFactor fuel r with
      | none => none
      | some (w, r2) => if w = 0 then none else parseTermLoop fuel (v / w) r2
    | t' => some (v, t')

/-- A factor: unary signs, a parenthesised expression, or a number. -/
def parseFactor : Nat → Text → Option (ℚ × Text)
  | 0, _ => none
  | fuel + 1, t =>
    match t.dropWhile isPySpace with
    | '+' :: r => parseFactor fuel r
    | '-' :: r =>
      match parseFactor fuel r with
      | none => none
      | some (v, r2) => some (-v, r2)
    | '(' :: r =>
      match parseExpr fuel r with
      | none => none
      | some (v, r2) =>
        match r2.dropWhile isPySpace with
        | ')' :: r4 => some (v, r4)
        | _ => none
    | t' => parseNumber t'

end

/-- Evaluate a whitelisted arithmetic expression (the `eval(expression)` call
of `calculate_expression`); `none` models a raised exception. -/
def evalPy (t : Text) : Option ℚ :=
  match parseExpr (4 * t.length + 8) t with
  | none => none
  | some (v, r) => if (r.dropWhile isPySpace).isEmpty then some v else none

/-- Transaction-kind derivation of `calculate_expression`, applied to the
original text: `++` savings, then `+-` debt_return, then `-+`
savings_withdraw, then a leading `-` (of the stripped text) debt, then a `+`
with no two-character marker income, else expense. -/
def calcTransType (text : Text) : TransType :=
  if containsPair '+' '+' text then TransType.savings
  else if containsPair '+' '-' text then TransType.debt_return
  else if containsPair '-' '+' text then TransType.savings_withdraw
  else if (match pyStrip text with | '-' :: _ => true | _ => false)
      && !containsPair '-' '+' text then TransType.debt
  else if containsChar text '+'
      && !(containsPair '+' '+' text || containsPair '+' '-' text
            || containsPair '-' '+' text) then TransType.income
  else TransType.expense

/-- `SimpleFinnBot.calculate_expression`: spaces removed and text lowered,
percentages rewritten, the sign-run collapsing replaces applied in order
(`++`→`+`, `--`→`+`, `+-`→`-`, `-+`→`-`), the character whitelist enforced,
then the expression evaluated; on success the absolute value of the result is
paired with the kind derived from the original text.  `none` models the
`(None, error-message)` returns of the source. -/
def calculate_expression (text : Text) : Option (ℚ × TransType) :=
  let e0 := toLowerText (text.filter (fun c => !(c = ' ')))
  let e1 := percentSub e0.length e0
  let e2 := replacePair '+' '+' '+' e1
  let e3 := replacePair '-' '-' '+' e2
  let e4 := replacePair '+' '-' '-' e3
  let e5 := replacePair '-' '+' '-' e4
  if e5.isEmpty || !(e5.all calcAllowed) then none
  else
    match evalPy e5 with
    | none => none
    | some result => some (|result|, calcTransType text)

/-- A committed transaction (`process_callback`, lines 1539–1546 of the
source).  Ids are 1-based and renumbered after deletions. -/
structure Transaction where
  id : Nat
  amount : ℚ
  category : Text
  description : Text
  ttype : TransType
  date : String
deriving DecidableEq, Repr

/-- A pending proposal (`self.pending[chat_id]`). -/
structure PendingTx where
  amount : ℚ
  text : Text
  category : Text
  ttype : TransType
deriving DecidableEq, Repr

/-- Monthly accumulators of `self.monthly_totals[user]`. -/
structure Totals where
  needs : ℚ
  wants : ℚ
  future : ℚ
  income : ℚ
deriving DecidableEq, Repr

/-- Derived percentages of `self.monthly_percentages[user]`. -/
structure Pcts where
  needs : ℚ
  wants : ℚ
  future : ℚ
deriving DecidableEq, Repr

def zeroTotals : Totals := ⟨0, 0, 0, 0⟩

def zeroPcts : Pcts := ⟨0, 0, 0⟩

inductive Bucket
  | needs
  | wants
  | future
deriving DecidableEq, Repr

/-- The threshold-crossing notifications of `check_503020_limits`, as
semantic tags for the six message strings. -/
inductive Notice
  | needsApproaching
  | needsOver
  | wantsApproaching
  | wantsOver
  | futureOnTarget
  | futureExcellent
deriving DecidableEq, Repr

/-- Per-user state of `SimpleFinnBot`, for one fixed user: the mutable
attributes the claims are about.  `deleteMode = none` covers both an absent
key and the stored value `False`; `categories` is the user's table after the
idempotent lazy initialisation of `get_user_categories` (a fresh user's table
is `[("Other", [])]`); `learned` and `currentMonth` are process-wide in the
source but only one user is modelled. -/
structure BotState where
  transactions : List Transaction
  pending : Option PendingTx
  deleteMode : Option (List (Nat × Nat))
  pendingIncome : Bool
  userIncome : Option ℚ
  categories : List (Text × List Text)
  learned : List (Text × Text)
  language : Option String
  monthlyTotals : Option Totals
  monthlyPercentages : Option Pcts
  prevPercentages : Option Pcts
  currentMonth : String
deriving DecidableEq, Repr

/-- Association-list lookup, modelling Python dict indexing in insertion
order (dict keys are unique, so first match is the match). -/
def alookup {β : Type} : List (Text × β) → Text → Option β
  | [], _ => none
  | (k, v) :: rest, key => if k = key then some v else alookup rest key

/-- Association-list update, modelling Python dict assignment: overwrite in
place if the key exists, else append (insertion order preserved). -/
def aset {β : Type} : List (Text × β) → Text → β → List (Text × β)
  | [], key, v => [(key, v)]
  | (k, w) :: rest, key, v =>
    if k = key then (k, v) :: rest else (k, w) :: aset rest key v

/-- Learning step of `process_callback` (source lines 1531–1534): each
extracted word is mapped to the confirmed category in `learned_patterns`. -/
def learnWords (learned : List (Text × Text)) (ws : List Text) (cat : Text) :
    List (Text × Text) :=
  ws.foldl (fun m w => aset m w cat) learned

/-- `SimpleFinnBot.guess_category`: learned patterns first (insertion order,
substring match against the lowered text), then the user's categories
skipping `Other` (first category with any keyword hit), else `Other`. -/
def guess_category (learned : List (Text × Text))
    (table : List (Text × List Text)) (t : Text) : Text :=
  let lower := toLowerText t
  match learned.find? (fun p => isSubtext p.1 lower) with
  | some p => p.2
  | none =>
    match (table.filter (fun e => !(e.1 = str "Other"))).find?
        (fun e => e.2.any (fun kw => isSubtext kw lower)) with
    | some e => e.1
    | none => str "Other"

/-- `self.protected_savings_categories`. -/
def protectedSavingsCategories : List Text :=
  [str "Crypto", str "Bank", str "Personal", str "Investment"]

/-- `SimpleFinnBot.remove_user_category`: protected savings categories are
rejected first; otherwise removal succeeds only for a present category that
is neither `Food` nor `Other`.  Returns the success flag and the (possibly
unchanged) table. -/
def remove_user_category (table : List (Text × List Text)) (name : Text) :
    Bool × List (Text × List Text) :=
  if protectedSavingsCategories.contains name then (false, table)
  else if table.any (fun e => e.1 = name)
      && !(name = str "Food" || name = str "Other") then
    (true, table.filter (fun e => !(e.1 = name)))
  else (false, table)

/-- `SimpleFinnBot.add_user_category`. -/
def add_user_category (table : List (Text × List Text)) (name : Text) :
    Bool × List (Text × List Text) :=
  if table.any (fun e => e.1 = name) then (false, table)
  else (true, table ++ [(name, [])])

/-- The `needs` list of `self.category_mapping`. -/
def needsCats : List Text :=
  [str "Rent", str "Mortgage", str "Groceries", str "Utilities",
   str "Electricity", str "Water", str "Gas", str "Internet", str "Phone",
   str "Transport", str "Fuel", str "Public Transport", str "Car Maintenance",
   str "Healthcare", str "Insurance", str "Medicine", str "Doctor"]

/-- The `wants` list of `self.category_mapping`. -/
def wantsCats : List Text :=
  [str "Shopping", str "Restaurants", str "Cafe", str "Dining",
   str "Entertainment", str "Movies", str "Concerts", str "Hobbies",
   str "Travel", str "Vacation", str "Luxury", str "Electronics",
   str "Clothing", str "Beauty", str "Gifts"]

/-- The `future` list of `self.category_mapping`. -/
def futureCats : List Text :=
  [str "Savings", str "Crypto", str "Bank", str "Personal", str "Investment",
   str "Stock", str "Debt Return", str "Education", str "Retirement",
   str "Emergency Fund"]

/-- `SimpleFinnBot.categorize_transaction`: bucket lists checked against the
lowered category name first (in dict order needs, wants, future), then
against the lowered description, defaulting to `wants`. -/
def categorize_transaction (category : Text) (description : Text) : Bucket :=
  let cl := toLowerText category
  let dl := toLowerText description
  if needsCats.any (fun c => isSubtext (toLowerText c) cl) then Bucket.needs
  else if wantsCats.any (fun c => isSubtext (toLowerText c) cl) then Bucket.wants
  else if futureCats.any (fun c => isSubtext (toLowerText c) cl) then Bucket.future
  else if needsCats.any (fun c => isSubtext (toLowerText c) dl) then Bucket.needs
  else if wantsCats.any (fun c => isSubtext (toLowerText c) dl) then Bucket.wants
  else if futureCats.any (fun c => isSubtext (toLowerText c) dl) then Bucket.future
  else Bucket.wants

/-- `SimpleFinnBot.calculate_503020_percentages`: bucket totals as a
percentage of income, all zero when income is not positive. -/
def calculate_503020_percentages (t : Totals) : Pcts :=
  if 0 < t.income then
    ⟨t.needs / t.income * 100, t.wants / t.income * 100,
      t.future / t.income * 100⟩
  else zeroPcts

/-- Add an amount to one bucket accumulator (`monthly_totals[user][bucket] +=
amount`; the bucket name produced by `categorize_transaction` is always a
key of the totals dict, so the source's membership guard always passes). -/
def applyBucket (t : Totals) (b : Bucket) (amount : ℚ) : Totals :=
  match b with
  | Bucket.needs => {t with needs := t.needs + amount}
  | Bucket.wants => {t with wants := t.wants + amount}
  | Bucket.future => {t with future := t.future + amount}

/-- `SimpleFinnBot.update_503020_totals`: initialise missing totals to zero,
reset them (and advance the stored month marker) when the observed month
differs from the marker, add the amount to the bucket, then recompute the
percentages.  The `hasattr(self, 'current_month')` guard of the source is
always true (the attribute is set in `__init__`). -/
def update_503020_totals (s : BotState) (nowMonth : String) (amount : ℚ)
    (bucket : Bucket) : BotState :=
  let t0 := s.monthlyTotals.getD zeroTotals
  let reset := nowMonth ≠ s.currentMonth
  let t1 := if reset then zeroTotals else t0
  let cm := if reset then nowMonth else s.currentMonth
  let t2 := applyBucket t1 bucket amount
  {s with monthlyTotals := some t2, currentMonth := cm,
          monthlyPercentages := some (calculate_503020_percentages t2)}

/-- `SimpleFinnBot.update_income_for_503020`: initialise missing totals to
zero, add the amount to the income accumulator, recompute the percentages.
Unlike `update_503020_totals` there is no month check and no reset. -/
def update_income_for_503020 (s : BotState) (amount : ℚ) : BotState :=
  let t0 := s.monthlyTotals.getD zeroTotals
  let t2 := {t0 with income := t0.income + amount}
  {s with monthlyTotals := some t2,
          monthlyPercentages := some (calculate_503020_percentages t2)}

/-- Needs notices of `check_503020_limits` (45% approaching, 50% over). -/
def needsNotices (cur prev : Pcts) : List Notice :=
  if 45 ≤ cur.needs ∧ cur.needs < 50 ∧ prev.needs < 45 then
    [Notice.needsApproaching]
  else if 50 ≤ cur.needs ∧ prev.needs < 50 then [Notice.needsOver]
  else []

/-- Wants notices of `check_503020_limits` (27% approaching, 30% over). -/
def wantsNotices (cur prev : Pcts) : List Notice :=
  if 27 ≤ cur.wants ∧ cur.wants < 30 ∧ prev.wants < 27 then
    [Notice.wantsApproaching]
  else if 30 ≤ cur.wants ∧ prev.wants < 30 then [Notice.wantsOver]
  else []

/-- Future notices of `check_503020_limits`: the source's `if/elif` emits
`futureOnTarget` when 20% is crossed, and `futureExcellent` only in the
`elif`, i.e. when 25% is crossed without 20% being crossed at the same time. -/
def futureNotices (cur prev : Pcts) : List Notice :=
  if 20 ≤ cur.future ∧ prev.future < 20 then [Notice.futureOnTarget]
  else if 25 ≤ cur.future ∧ prev.future < 25 then [Notice.futureExcellent]
  else []

/-- `SimpleFinnBot.check_503020_limits`: returns early with no notices when
the user has no computed percentages; otherwise compares the current
percentages with the stored previous ones (zero when absent), collects the
notices, and stores the current percentages as the new previous ones. -/
def check_503020_limits (s : BotState) : BotState × List Notice :=
  match s.monthlyPercentages with
  | none => (s, [])
  | some cur =>
    let prev := s.prevPercentages.getD zeroPcts
    ({s with prevPercentages := some cur},
      needsNotices cur prev ++ wantsNotices cur prev ++ futureNotices cur prev)

/-- Renumber a ledger so ids are `n`, `n+1`, … in order (the source's
`for i, transaction in enumerate(...): transaction['id'] = i + 1` is
`renumber 1`). -/
def renumber : Nat → List Transaction → List Transaction
  | _, [] => []
  | n, t :: ts => {t with id := n} :: renumber (n + 1) ts

/-- Ledger append of `process_callback` (source lines 1538–1547): the new
transaction's id is the current ledger length plus 1. -/
def appendTransaction (ts : List Transaction) (amount : ℚ) (category : Text)
    (description : Text) (ttype : TransType) (date : String) :
    List Transaction :=
  ts ++ [⟨ts.length + 1, amount, category, description, ttype, date⟩]

/-- Ledger delete of `process_message` (source lines 791–817): `pop` the
transaction at position `i`, then renumber every remaining transaction's id
to its new 1-based position. -/
def deleteTransaction (ts : List Transaction) (i : Nat) : List Transaction :=
  renumber 1 (ts.eraseIdx i)

/-- Delete-mode numbering (source lines 1073–1121): transactions are grouped
by kind in the fixed order income, expense, savings, debt, debt_return,
savings_withdraw, and display numbers 1.. are mapped to original 0-based
ledger indices. -/
def buildDeleteMap (ts : List Transaction) : List (Nat × Nat) :=
  let ordered :=
    ([TransType.income, TransType.expense, TransType.savings, TransType.debt,
      TransType.debt_return, TransType.savings_withdraw]).flatMap
      (fun ty => ts.enum.filter (fun p => decide (p.2.ttype = ty)))
  ordered.enum.map (fun q => (q.1 + 1, q.2.1))

/-- Semantic tags for the outbound messages of the two handlers.  The claims
are about state transitions and which response class is produced, so message
bodies (localised strings, keyboards) are not rendered. -/
inductive Output
  | startLangSelect
  | langMenu
  | restartPrompt
  | incomePrompt
  | helpMsg
  | summaryEmpty
  | summaryCrash
  | statusNoData
  | statusMsg
  | deleteEmpty
  | deleteListPrompt
  | manageCategories
  | categoryAdded (name : Text)
  | categoryExists (name : Text)
  | categoryRemoved (name : Text)
  | cannotRemove (name : Text)
  | incomeSet (v : ℚ)
  | incomeNotPositive
  | incomeInvalid
  | calcAsk (ttype : TransType)
  | calcError
  | askCategory (ttype : TransType)
  | savingsBranchCrash
  | amountHelp
  | deleteExit
  | deletedTx (ttype : TransType)
  | invalidNumber
  | deleteCancelled
  | expired
  | committed (ttype : TransType) (notices : List Notice)
  | langSet (l : String)
  | restartDone
  | restartCancelled
  | noop
deriving DecidableEq, Repr

/-- The `symbol` value returned by `calculate_expression` for each kind. -/
def symbolOf : TransType → Text
  | TransType.savings => str "++"
  | TransType.debt_return => str "+-"
  | TransType.savings_withdraw => str "-+"
  | TransType.debt => str "-"
  | TransType.income => str "+"
  | TransType.expense => str "-"

/-- Rendering of `f"{amount:,.0f}"` used in the pending text of the
calculation path, simplified to the rounded integer without thousands
separators (Python rounds half-to-even and inserts commas; no claim depends
on this cosmetic rendering, which only ever contributes non-alphabetic
characters to a pending text). -/
def formatAmount (q : ℚ) : Text := str (toString (round q))

/-- Pending text stored by the calculation path:
`f"{text} = {symbol}{amount:,.0f}₴"`. -/
def calcPendingText (text : Text) (amount : ℚ) (ttype : TransType) : Text :=
  text ++ str " = " ++ symbolOf ttype ++ formatAmount amount ++ str "₴"

/-- Transaction-processing tail of `process_message` (source lines
1244–1450): texts containing an arithmetic operator together with a digit go
through `calculate_expression` (and on a calculation error the handler
returns without ever reaching `extract_amount`); all other texts go through
`extract_amount`, and a successful extraction stores a pending proposal whose
kind follows the source's flag order debt_return, savings_withdraw, debt,
savings, income, expense.  In the savings flag branch the source sends the
savings keyboard and then raises `UnboundLocalError` at the pending
assignment (`category` was never bound), so no pending proposal is stored. -/
def transactionProcessing (s : BotState) (text : Text) : BotState × Output :=
  if (containsChar text '+' || containsChar text '-' || containsChar text '*'
        || containsChar text '/' || containsChar text '%')
      && text.any Char.isDigit then
    match calculate_expression text with
    | some (amount, ttype) =>
      let category := if ttype = TransType.income then str "Salary" else str "Other"
      let p : PendingTx := ⟨amount, calcPendingText text amount ttype, category, ttype⟩
      ({s with pending := some p}, Output.calcAsk ttype)
    | none => (s, Output.calcError)
  else
    let e := extract_amount text
    match e.amount with
    | none => (s, Output.amountHelp)
    | some amount =>
      if e.is_debt_return then
        let p : PendingTx := ⟨amount, text, str "Debt Return", TransType.debt_return⟩
        ({s with pending := some p}, Output.askCategory TransType.debt_return)
      else if e.is_savings_withdraw then
        let p : PendingTx :=
          ⟨amount, text, str "Savings Withdrawal", TransType.savings_withdraw⟩
        ({s with pending := some p}, Output.askCategory TransType.savings_withdraw)
      else if e.is_debt then
        let p : PendingTx := ⟨amount, text, str "Debt", TransType.debt⟩
        ({s with pending := some p}, Output.askCategory TransType.debt)
      else if e.is_savings then
        (s, Output.savingsBranchCrash)
      else if e.is_income then
        let p : PendingTx := ⟨amount, text, str "Salary", TransType.income⟩
        ({s with pending := some p}, Output.askCategory TransType.income)
      else
        let category := guess_category s.learned s.categories text
        let p : PendingTx := ⟨amount, text, category, TransType.expense⟩
        ({s with pending := some p}, Output.askCategory TransType.expense)

/-- Python `text.startswith(c)` for a one-character prefix. -/
def startsWithChar (c : Char) (t : Text) : Bool :=
  match t with
  | d :: _ => d = c
  | [] => false

/-- Pending-income branch and transaction fallthrough of `process_message`
(source lines 1191–1450): while an income figure is awaited, the text must
parse as a positive float; errors leave the pending-income flag set. -/
def afterCategoryBranches (s : BotState) (text : Text) : BotState × Output :=
  if s.pendingIncome then
    match pyFloat? text with
    | some income =>
      if income ≤ 0 then (s, Output.incomeNotPositive)
      else ({s with userIncome := some income, pendingIncome := false},
             Output.incomeSet income)
    | none => (s, Output.incomeInvalid)
  else transactionProcessing s text

/-- The command chain of `process_message` outside delete mode (source lines
833–1450), in the source's `elif` order.  The `📊 Financial Summary` branch
with a non-empty ledger raises `NameError` (`summary_text` is used before
assignment, source line 983) without mutating state. -/
def normalProcessing (s : BotState) (text : Text) : BotState × Output :=
  if text = str "/start" then (s, Output.startLangSelect)
  else if text = str "🌍 Language" then (s, Output.langMenu)
  else if text = str "🔄 Restart Bot" ∨ text = str "🔄 Перезапустити бота" then
    (s, Output.restartPrompt)
  else if text = str "/income" then
    ({s with pendingIncome := true}, Output.incomePrompt)
  else if text = str "/help" then (s, Output.helpMsg)
  else if text = str "📊 Financial Summary" then
    if s.transactions.isEmpty then (s, Output.summaryEmpty)
    else (s, Output.summaryCrash)
  else if text = str "📊 50/30/20 Status" then
    (s, if s.monthlyTotals.isNone ∨ s.monthlyPercentages.isNone
          ∨ (s.monthlyTotals.getD zeroTotals).income = 0
        then Output.statusNoData else Output.statusMsg)
  else if text = str "🗑️ Delete Transaction" then
    if s.transactions.isEmpty then (s, Output.deleteEmpty)
    else ({s with deleteMode := some (buildDeleteMap s.transactions)},
           Output.deleteListPrompt)
  else if text = str "🏷️ Manage Categories" then (s, Output.manageCategories)
  else if startsWithChar '+' text && decide (1 < text.length)
      && !((text.drop 1).any Char.isDigit) then
    let name := pyStrip (text.drop 1)
    match add_user_category s.categories name with
    | (true, table) => ({s with categories := table}, Output.categoryAdded name)
    | (false, _) => (s, Output.categoryExists name)
  else if startsWithChar '-' text && decide (1 < text.length)
      && !((text.drop 1).any Char.isDigit) then
    let name := pyStrip (text.drop 1)
    match remove_user_category s.categories name with
    | (true, table) => ({s with categories := table}, Output.categoryRemoved name)
    | (false, _) => (s, Output.cannotRemove name)
  else afterCategoryBranches s text

/-- Delete-mode handling of `process_message` (source lines 776–830), active
while `delete_mode[chat_id]` holds a non-empty display-number map: `0` exits
the mode; another digit reply deletes the mapped transaction (renumbering the
rest) and exits; an unmapped or out-of-range digit reports an invalid number
and leaves the mode active; any non-digit reply cancels the mode. -/
def deleteModeHandling (s : BotState) (tmap : List (Nat × Nat)) (text : Text) :
    BotState × Output :=
  if pyIsDigit text then
    if text = str "0" then ({s with deleteMode := none}, Output.deleteExit)
    else
      match List.lookup (natOfDigits text) tmap with
      | some idx =>
        if idx < s.transactions.length then
          ({s with transactions := deleteTransaction s.transactions idx,
                   deleteMode := none},
            Output.deletedTx (((s.transactions.get? idx).map
              Transaction.ttype).getD TransType.expense))
        else (s, Output.invalidNumber)
      | none => (s, Output.invalidNumber)
  else ({s with deleteMode := none}, Output.deleteCancelled)

/-- `SimpleFinnBot.process_message` for one user: the delete-mode map is
consulted first (Python truthiness: an absent key, a stored `False`, and an
empty map all fall through to normal processing). -/
def process_message (s : BotState) (text : Text) : BotState × Output :=
  match s.deleteMode with
  | some tmap =>
    if tmap.isEmpty then normalProcessing s text
    else deleteModeHandling s tmap text
  | none => normalProcessing s text

/-- `SimpleFinnBot.process_callback` for one user.  `nowMonth` and `nowDate`
stand for the `datetime.now()` reads.  The `cat_` branch with a pending
proposal: run the learning step when an expense's category was corrected,
append the committed transaction, update the budget tracker (income events
through `update_income_for_503020`, everything else through
`update_503020_totals`), collect the threshold notices, and clear the
pending slot; without a pending proposal, report the expired transaction and
change nothing. -/
def confirmCategory (s : BotState) (nowMonth : String) (nowDate : String)
    (category : Text) : BotState × Output :=
  match s.pending with
  | some p =>
    let learned' :=
      if p.category ≠ category ∧ p.ttype = TransType.expense then
        learnWords s.learned (extractWords p.text) category
      else s.learned
    let s1 := {s with learned := learned',
                      transactions := appendTransaction s.transactions
                        p.amount category p.text p.ttype nowDate}
    let bucket := categorize_transaction category p.text
    let s2 :=
      if p.ttype = TransType.income then update_income_for_503020 s1 p.amount
      else update_503020_totals s1 nowMonth p.amount bucket
    let r := check_503020_limits s2
    ({r.1 with pending := none}, Output.committed p.ttype r.2)
  | none => (s, Output.expired)

def process_callback (s : BotState) (nowMonth : String) (nowDate : String)
    (data : Text) : BotState × Output :=
  if (str "start_lang_").isPrefixOf data then
    ({s with language := some (String.mk (data.drop 11))},
      Output.langSet (String.mk (data.drop 11)))
  else if (str "cat_").isPrefixOf data then
    confirmCategory s nowMonth nowDate (data.drop 4)
  else if data = str "confirm_restart" then
    ({s with transactions := [], userIncome := none,
             categories := [(str "Other", [])], pending := none,
             pendingIncome := false, deleteMode := none}, Output.restartDone)
  else if data = str "cancel_restart" then (s, Output.restartCancelled)
  else if (str "lang_").isPrefixOf data then
    ({s with language := some (String.mk (data.drop 5))},
      Output.langSet (String.mk (data.drop 5)))
  else (s, Output.noop)

/-- State of a fresh user (no stored data; the category table as initialised
by `get_user_categories`).  The month marker value is arbitrary. -/
def initialState : BotState :=
  ⟨[], none, none, false, none, [(str "Other", [])], [], none, none, none,
    none, "2025-09"⟩

/-! ## Helper lemmas -/

theorem neTextOfHead {t₁ t₂ : Text} (h : t₁.head? ≠ t₂.head?) : t₁ ≠ t₂ :=
  fun he => h (he ▸ rfl)

theorem neTextCons {c : Char} {l : Text} {t : Text} (h : t.head? ≠ some c) :
    (c :: l) ≠ t :=
  fun he => h (by rw [← he]; rfl)

theorem process_message_of_noDeleteMode (s : BotState) (text : Text)
    (h : s.deleteMode = none) :
    process_message s text = normalProcessing s text := by
  simp [process_message, h]

/-- On a text starting with `-` whose tail is non-empty and digit-free, the
command chain reaches the category-removal branch (no literal command starts
with `-`). -/
theorem normalProcessing_minus (s : BotState) (rest : Text) (hne : rest ≠ [])
    (hnd : rest.any Char.isDigit = false) :
    normalProcessing s ('-' :: rest) =
      (match remove_user_category s.categories (pyStrip rest) with
       | (true, table) =>
         ({s with categories := table}, Output.categoryRemoved (pyStrip rest))
       | (false, _) => (s, Output.cannotRemove (pyStrip rest))) := by
  have h1 : ('-' :: rest) ≠ str "/start" := neTextCons (by decide)
  have h2 : ('-' :: rest) ≠ str "🌍 Language" := neTextCons (by decide)
  have h3 : ('-' :: rest) ≠ str "🔄 Restart Bot" := neTextCons (by decide)
  have h4 : ('-' :: rest) ≠ str "🔄 Перезапустити бота" := neTextCons (by decide)
  have h5 : ('-' :: rest) ≠ str "/income" := neTextCons (by decide)
  have h6 : ('-' :: rest) ≠ str "/help" := neTextCons (by decide)
  have h7 : ('-' :: rest) ≠ str "📊 Financial Summary" := neTextCons (by decide)
  have h8 : ('-' :: rest) ≠ str "📊 50/30/20 Status" := neTextCons (by decide)
  have h9 : ('-' :: rest) ≠ str "🗑️ Delete Transaction" := neTextCons (by decide)
  have h10 : ('-' :: rest) ≠ str "🏷️ Manage Categories" := neTextCons (by decide)
  have hplus : (startsWithChar '+' ('-' :: rest) && decide (1 < ('-' :: rest).length)
      && !(('-' :: rest).drop 1).any Char.isDigit) = false := by
    simp [startsWithChar]
  have hlen0 : 0 < rest.length := by
    cases rest with
    | nil => exact absurd rfl hne
    | cons a l => simp
  have hminus : (startsWithChar '-' ('-' :: rest) && decide (1 < ('-' :: rest).length)
      && !(('-' :: rest).drop 1).any Char.isDigit) = true := by
    simp [startsWithChar, hnd, hlen0]
  unfold normalProcessing
  rw [if_neg h1, if_neg h2, if_neg (not_or.mpr ⟨h3, h4⟩), if_neg h5,
    if_neg h6, if_neg h7, if_neg h8, if_neg h9, if_neg h10,
    if_neg (by rw [hplus]; exact Bool.false_ne_true), if_pos hminus]
  rfl

/-! ## Claim C10 -/

/-- Claim C10: beyond the protected set the spec names, the removal
operation also refuses the category `Food`: for every user category table,
removing `Food` returns `false` and leaves the table unchanged, although
`Food` is neither `Other` nor one of the protected savings categories. -/
theorem claim_C10 : ∀ (table : List (Text × List Text)),
    remove_user_category table (str "Food") = (false, table) ∧
      str "Food" ∉ protectedSavingsCategories ∧ str "Food" ≠ str "Other" := by
  intro table
  refine ⟨?_, by decide, by decide⟩
  unfold remove_user_category
  rw [if_neg (by decide)]
  rw [if_neg]
  simp

/-! ## Claim C8 -/

/-- Claim C8: for every user state and every category name that is `Other`
or a member of the protected savings set (Crypto, Bank, Personal,
Investment), an attempt to remove that category always fails: the removal
operation returns `false` and, for the `-name` command (outside delete
mode), the handler reports the rejection and leaves the whole state — in
particular the category table — unchanged. -/
theorem claim_C8 : ∀ (s : BotState) (name : Text),
    name = str "Other" ∨ name ∈ protectedSavingsCategories →
    remove_user_category s.categories name = (false, s.categories) ∧
      (s.deleteMode = none →
        process_message s ('-' :: name) = (s, Output.cannotRemove name)) := by
  intro s name hname
  have hrem : remove_user_category s.categories name = (false, s.categories) := by
    rcases hname with h | h
    · subst h
      unfold remove_user_category
      rw [if_neg (by decide), if_neg]
      simp
    · unfold remove_user_category
      rw [if_pos]
      simpa [protectedSavingsCategories] using h
  refine ⟨hrem, fun hdel => ?_⟩
  have hstrip : pyStrip name = name := by
    rcases hname with h | h
    · subst h; decide
    · simp only [protectedSavingsCategories, List.mem_cons,
        List.mem_singleton, List.not_mem_nil, or_false] at h
      rcases h with h | h | h | h <;> subst h <;> decide
  have hne : name ≠ [] := by
    rcases hname with h | h
    · subst h; decide
    · simp only [protectedSavingsCategories, List.mem_cons,
        List.mem_singleton, List.not_mem_nil, or_false] at h
      rcases h with h | h | h | h <;> subst h <;> decide
  have hnd : name.any Char.isDigit = false := by
    rcases hname with h | h
    · subst h; decide
    · simp only [protectedSavingsCategories, List.mem_cons,
        List.mem_singleton, List.not_mem_nil, or_false] at h
      rcases h with h | h | h | h <;> subst h <;> decide
  rw [process_message_of_noDeleteMode s _ hdel,
    normalProcessing_minus s name hne hnd, hstrip, hrem]

/-- Claim C8 witness: removing `Other` from a fresh user fails and leaves the
state untouched. -/
theorem claim_C8_witness :
    remove_user_category initialState.categories (str "Other") =
        (false, initialState.categories) ∧
      process_message initialState ('-' :: str "Other") =
        (initialState, Output.cannotRemove (str "Other")) := by
  have h := claim_C8 initialState (str "Other") (Or.inl rfl)
  exact ⟨h.1, h.2 rfl⟩

/-! ## Claim C4 -/

/-- The ledger invariant: each transaction's `id` equals its 1-based
position, i.e. the ids are exactly 1..N in insertion order with no gaps and
no duplicates. -/
def wellNumbered (ts : List Transaction) : Prop :=
  ∀ (i : Nat) (h : i < ts.length), (ts.get ⟨i, h⟩).id = i + 1

theorem renumber_length (n : Nat) (ts : List Transaction) :
    (renumber n ts).length = ts.length := by
  induction ts generalizing n with
  | nil => rfl
  | cons t ts ih => simp [renumber, ih]

theorem renumber_get (ts : List Transaction) :
    ∀ (n i : Nat) (h : i < (renumber n ts).length),
      ((renumber n ts).get ⟨i, h⟩).id = n + i := by
  induction ts with
  | nil => intro n i h; simp [renumber] at h
  | cons t ts ih =>
    intro n i h
    cases i with
    | zero => simp [renumber]
    | succ j =>
      have hj : j < (renumber (n + 1) ts).length := by
        simpa [renumber] using h
      have ihj := ih (n + 1) j hj
      simp only [renumber, List.get_eq_getElem, List.getElem_cons_succ]
      simp only [List.get_eq_getElem] at ihj
      rw [ihj]
      omega

theorem get_append_singleton (ts : List Transaction) (t : Transaction) :
    ∀ (i : Nat) (h : i < (ts ++ [t]).length),
      (ts ++ [t]).get ⟨i, h⟩ =
        if hi : i < ts.length then ts.get ⟨i, hi⟩ else t := by
  intro i h
  by_cases hi : i < ts.length
  · rw [dif_pos hi]
    simp only [List.get_eq_getElem]
    exact List.getElem_append_left hi
  · rw [dif_neg hi]
    have hieq : i = ts.length := by
      simp only [List.length_append, List.length_singleton] at h
      omega
    simp only [List.get_eq_getElem]
    exact List.getElem_concat_length ts t i hieq h

/-- Claim C4: appending a committed transaction assigns its id as the current
ledger length plus 1 and preserves the 1..N numbering; deleting the
transaction at any valid position yields a ledger of length N−1 in which
every remaining transaction's id equals its new 1-based position — so after
every append or delete the ids are exactly 1..N in insertion order. -/
theorem claim_C4 : ∀ (ts : List Transaction) (a : ℚ) (c d : Text)
    (ty : TransType) (dt : String),
    ((appendTransaction ts a c d ty dt).length = ts.length + 1 ∧
      ∀ h : ts.length < (appendTransaction ts a c d ty dt).length,
        ((appendTransaction ts a c d ty dt).get ⟨ts.length, h⟩).id =
          ts.length + 1) ∧
    (wellNumbered ts → wellNumbered (appendTransaction ts a c d ty dt)) ∧
    (∀ i, i < ts.length →
      (deleteTransaction ts i).length = ts.length - 1 ∧
        wellNumbered (deleteTransaction ts i)) := by
  intro ts a c d ty dt
  refine ⟨⟨by simp [appendTransaction], fun h => ?_⟩, fun hw => ?_, fun i hi => ?_⟩
  · simp only [appendTransaction]
    rw [get_append_singleton, dif_neg (by omega)]
  · intro i h
    have hlen : (appendTransaction ts a c d ty dt).length = ts.length + 1 := by
      simp [appendTransaction]
    simp only [appendTransaction] at h ⊢
    rw [get_append_singleton]
    rcases Nat.lt_or_ge i ts.length with hlt | hge
    · rw [dif_pos hlt]; exact hw i hlt
    · have hieq : i = ts.length := by
        simp only [List.length_append, List.length_singleton] at h
        omega
      rw [dif_neg (by omega)]
      simp [hieq]
  · constructor
    · unfold deleteTransaction
      rw [renumber_length, List.length_eraseIdx]
      simp [hi]
    · intro j h
      unfold deleteTransaction
      have := renumber_get (ts.eraseIdx i) 1 j
        (by simpa [deleteTransaction] using h)
      simp only [deleteTransaction] at *
      rw [this]
      omega

/-- Claim C4 witness: concrete append and delete on a one-element ledger. -/
theorem claim_C4_witness :
    (appendTransaction [] 150 (str "Food") (str "150 lunch")
        TransType.expense "2025-10-12").length = 1 ∧
      (deleteTransaction [⟨1, 150, str "Food", str "150 lunch",
          TransType.expense, "2025-10-12"⟩] 0).length = 0 ∧
      wellNumbered (deleteTransaction [⟨1, 150, str "Food", str "150 lunch",
          TransType.expense, "2025-10-12"⟩] 0) := by
  have h := claim_C4 [⟨1, 150, str "Food", str "150 lunch",
    TransType.expense, "2025-10-12"⟩] 150 (str "Food") (str "150 lunch")
    TransType.expense "2025-10-12"
  have h2 := h.2.2 0 (by decide)
  exact ⟨(claim_C4 [] 150 (str "Food") (str "150 lunch") TransType.expense
    "2025-10-12").1.1, h2.1, h2.2⟩

/-! ## Claim C7 -/

theorem pcts_applyBucket_zero (b : Bucket) (a : ℚ) :
    calculate_503020_percentages (applyBucket zeroTotals b a) = zeroPcts := by
  cases b <;> simp [applyBucket, calculate_503020_percentages, zeroTotals]

theorem check_limits_prev (s : BotState) (cur : Pcts)
    (h : s.monthlyPercentages = some cur) :
    (check_503020_limits s).1.prevPercentages = some cur := by
  simp [check_503020_limits, h]

/-- A state whose stored month marker is one month behind, with non-zero
January accumulators. -/
def c7State : BotState :=
  {initialState with currentMonth := "2025-01",
                     monthlyTotals := some ⟨50, 0, 0, 100⟩}

/-- Claim C7 counterexample: when the first mutation of the new month is an
income event, no accumulator is reset and the month marker is not advanced —
the stale `needs` total of 50 survives into the new month and the income is
added on top of the old income, although the observed month `"2025-02"`
differs from the stored marker `"2025-01"`.  The claim demands all four
accumulators be reset to zero before the mutation. -/
theorem claim_C7_counterexample :
    "2025-02" ≠ c7State.currentMonth ∧
      (update_income_for_503020 c7State 100).monthlyTotals =
        some ⟨50, 0, 0, 200⟩ ∧
      (update_income_for_503020 c7State 100).currentMonth = "2025-01" ∧
      ((50 : ℚ) ≠ 0) := by
  refine ⟨by decide, ?_, rfl, by norm_num⟩
  simp only [update_income_for_503020, c7State, initialState]
  norm_num

/-- Claim C7 (amended): the reset of all four monthly accumulators on a
month advance happens only in `update_503020_totals`, the non-income path —
there the reset and the marker advance precede the mutation, and the derived
percentages all become 0 (income is zero after the reset); the income path
`update_income_for_503020` never resets the accumulators and never advances
the month marker, so when the first mutation of the new month is an income
event the old month's accumulators persist and the income accumulates on
top.  After the threshold check that follows the resetting mutation, the
stored previous percentages are the fresh zeros, so they no longer suppress
any notice. -/
theorem claim_C7_amended : ∀ (s : BotState) (nowMonth : String) (amount : ℚ)
    (bucket : Bucket),
    (nowMonth ≠ s.currentMonth →
      (update_503020_totals s nowMonth amount bucket).monthlyTotals =
          some (applyBucket zeroTotals bucket amount) ∧
        (update_503020_totals s nowMonth amount bucket).currentMonth =
          nowMonth ∧
        (update_503020_totals s nowMonth amount bucket).monthlyPercentages =
          some zeroPcts ∧
        (check_503020_limits
            (update_503020_totals s nowMonth amount bucket)).1.prevPercentages
          = some zeroPcts) ∧
    ((update_income_for_503020 s amount).monthlyTotals =
        some {s.monthlyTotals.getD zeroTotals with
                income := (s.monthlyTotals.getD zeroTotals).income + amount} ∧
      (update_income_for_503020 s amount).currentMonth = s.currentMonth) := by
  intro s nowMonth amount bucket
  refine ⟨fun hne => ⟨?_, ?_, ?_, ?_⟩, rfl, rfl⟩
  · simp [update_503020_totals, hne]
  · simp [update_503020_totals, hne]
  · simp [update_503020_totals, hne, pcts_applyBucket_zero]
  · exact check_limits_prev _ zeroPcts
      (by simp [update_503020_totals, hne, pcts_applyBucket_zero])

/-- Claim C7 witness: a bucket mutation in a new month resets the
accumulators before applying the mutation. -/
theorem claim_C7_witness :
    (update_503020_totals c7State "2025-02" 100 Bucket.needs).monthlyTotals =
        some (applyBucket zeroTotals Bucket.needs 100) ∧
      (update_503020_totals c7State "2025-02" 100 Bucket.needs).currentMonth =
        "2025-02" := by
  have h := (claim_C7_amended c7State "2025-02" 100 Bucket.needs).1 (by decide)
  exact ⟨h.1, h.2.1⟩

/-! ## Claim C6 -/

theorem futureOnTarget_not_mem_needs (cur prev : Pcts) :
    Notice.futureOnTarget ∉ needsNotices cur prev := by
  unfold needsNotices
  split
  · simp
  · split <;> simp

theorem futureOnTarget_not_mem_wants (cur prev : Pcts) :
    Notice.futureOnTarget ∉ wantsNotices cur prev := by
  unfold wantsNotices
  split
  · simp
  · split <;> simp

theorem futureExcellent_not_mem_needs (cur prev : Pcts) :
    Notice.futureExcellent ∉ needsNotices cur prev := by
  unfold needsNotices
  split
  · simp
  · split <;> simp

theorem futureExcellent_not_mem_wants (cur prev : Pcts) :
    Notice.futureExcellent ∉ wantsNotices cur prev := by
  unfold wantsNotices
  split
  · simp
  · split <;> simp

/-- A state whose next 50/30/20 check sees the future percentage jump from a
previous value of 0 straight to 30%. -/
def c6State : BotState := {initialState with monthlyPercentages := some ⟨0, 0, 30⟩}

/-- Claim C6 counterexample: on a single jump of the future percentage from
below 20% (previous value 0) directly past 25% (current value 30%), the
check emits only the `on target` notice — the `excellent` notice is not
emitted, although the future percentage is ≥ 25% for the first time.  The
source's `elif` makes the 25% notice unreachable whenever the 20% notice
fires in the same mutation. -/
theorem claim_C6_counterexample :
    (check_503020_limits c6State).2 = [Notice.futureOnTarget] ∧
      Notice.futureExcellent ∉ (check_503020_limits c6State).2 ∧
      (25 ≤ (30 : ℚ) ∧ (c6State.prevPercentages.getD zeroPcts).future < 25) := by
  decide

/-- Claim C6 (amended): within one month the tracker emits `on target` on
the first mutation after which the future percentage is ≥ 20%; it emits
`excellent` on a mutation exactly when the future percentage reaches ≥ 25%
from a previous value that was already ≥ 20% (and below 25%) — on a single
jump from below 20% directly past 25% only `on target` fires and `excellent`
does not; the current percentages are stored as the new previous ones, so an
immediately repeated check emits neither future notice again. -/
theorem claim_C6_amended : ∀ (s : BotState) (cur : Pcts),
    s.monthlyPercentages = some cur →
    ((Notice.futureOnTarget ∈ (check_503020_limits s).2 ↔
        20 ≤ cur.future ∧ (s.prevPercentages.getD zeroPcts).future < 20) ∧
      (Notice.futureExcellent ∈ (check_503020_limits s).2 ↔
        25 ≤ cur.future ∧ 20 ≤ (s.prevPercentages.getD zeroPcts).future ∧
          (s.prevPercentages.getD zeroPcts).future < 25) ∧
      (check_503020_limits s).1.prevPercentages = some cur ∧
      Notice.futureOnTarget ∉
        (check_503020_limits (check_503020_limits s).1).2 ∧
      Notice.futureExcellent ∉
        (check_503020_limits (check_503020_limits s).1).2) := by
  intro s cur h
  have hfst : ∀ (s' : BotState), s'.monthlyPercentages = some cur →
      (check_503020_limits s').1 = {s' with prevPercentages := some cur} := by
    intro s' h'
    simp [check_503020_limits, h']
  have hsnd : ∀ (s' : BotState), s'.monthlyPercentages = some cur →
      (check_503020_limits s').2 =
        needsNotices cur (s'.prevPercentages.getD zeroPcts)
          ++ wantsNotices cur (s'.prevPercentages.getD zeroPcts)
          ++ futureNotices cur (s'.prevPercentages.getD zeroPcts) := by
    intro s' h'
    simp [check_503020_limits, h']
  set prev := s.prevPercentages.getD zeroPcts with hprev
  have hmemT : Notice.futureOnTarget ∈ (check_503020_limits s).2 ↔
      Notice.futureOnTarget ∈ futureNotices cur prev := by
    rw [hsnd s h]
    simp [List.mem_append, futureOnTarget_not_mem_needs,
      futureOnTarget_not_mem_wants, hprev]
  have hmemE : Notice.futureExcellent ∈ (check_503020_limits s).2 ↔
      Notice.futureExcellent ∈ futureNotices cur prev := by
    rw [hsnd s h]
    simp [List.mem_append, futureExcellent_not_mem_needs,
      futureExcellent_not_mem_wants, hprev]
  have hrepeat : (check_503020_limits (check_503020_limits s).1).2 =
      needsNotices cur cur ++ wantsNotices cur cur ++ futureNotices cur cur := by
    rw [hfst s h, hsnd {s with prevPercentages := some cur} (by simpa using h)]
    simp
  have hfutT : Notice.futureOnTarget ∉ futureNotices cur cur := by
    unfold futureNotices
    split
    · rename_i hA; exact absurd hA (by rintro ⟨ha, hb⟩; linarith)
    · split <;> simp
  have hfutE : Notice.futureExcellent ∉ futureNotices cur cur := by
    unfold futureNotices
    split
    · simp
    · split
      · rename_i hA hB; exact absurd hB (by rintro ⟨ha, hb⟩; linarith)
      · simp
  refine ⟨?_, ?_, by rw [hfst s h], ?_, ?_⟩
  · rw [hmemT]
    unfold futureNotices
    split
    · simp_all
    · split <;> simp_all
  · rw [hmemE]
    unfold futureNotices
    split
    · rename_i hA
      constructor
      · simp
      · rintro ⟨h25, hp20, hp25⟩
        exact absurd hA.2 (by linarith)
    · split
      · rename_i hA hB
        simp only [List.mem_singleton, true_iff]
        have h20f : (20 : ℚ) ≤ cur.future := by linarith [hB.1]
        have : ¬ prev.future < 20 := fun hc => hA ⟨h20f, hc⟩
        exact ⟨hB.1, by linarith, hB.2⟩
      · rename_i hA hB
        simp only [List.not_mem_nil, false_iff]
        rintro ⟨h25, hp20, hp25⟩
        exact hB ⟨h25, hp25⟩
  · rw [hrepeat]
    simp only [List.mem_append, not_or]
    exact ⟨⟨futureOnTarget_not_mem_needs cur cur,
      futureOnTarget_not_mem_wants cur cur⟩, hfutT⟩
  · rw [hrepeat]
    simp only [List.mem_append, not_or]
    exact ⟨⟨futureExcellent_not_mem_needs cur cur,
      futureExcellent_not_mem_wants cur cur⟩, hfutE⟩

/-- Claim C6 witness: the `on target` notice is emitted at the 0 → 30%
jump, through the amended theorem. -/
theorem claim_C6_witness :
    Notice.futureOnTarget ∈ (check_503020_limits c6State).2 :=
  ((claim_C6_amended c6State ⟨0, 0, 30⟩ rfl).1).mpr (by decide)

/-! ## Claims C3 and C5 -/

/-- A category-selection callback (`data = "cat_" ++ cat`) always dispatches
to the confirmation step: `"cat_…"` is never a `"start_lang_…"` payload. -/
theorem process_callback_cat (s : BotState) (nowM nowD : String) (cat : Text) :
    process_callback s nowM nowD (str "cat_" ++ cat) =
      confirmCategory s nowM nowD cat := by
  have e1 : str "cat_" ++ cat = 'c' :: 'a' :: 't' :: '_' :: cat := by
    rw [show str "cat_" = ['c', 'a', 't', '_'] from by decide]
    rfl
  have e2 : str "start_lang_" =
      ['s', 't', 'a', 'r', 't', '_', 'l', 'a', 'n', 'g', '_'] := by decide
  have e3 : List.drop 4 ('c' :: 'a' :: 't' :: '_' :: cat) = cat := rfl
  unfold process_callback
  rw [e1, e2]
  have h1 : List.isPrefixOf ['s', 't', 'a', 'r', 't', '_', 'l', 'a', 'n', 'g', '_']
      ('c' :: 'a' :: 't' :: '_' :: cat) = false := by
    simp [List.isPrefixOf]
  have h2 : List.isPrefixOf (str "cat_") ('c' :: 'a' :: 't' :: '_' :: cat)
      = true := by
    rw [show str "cat_" = ['c', 'a', 't', '_'] from by decide]
    simp [List.isPrefixOf]
  rw [if_neg (by rw [h1]; exact Bool.false_ne_true), if_pos h2, e3]

/-- Claim C3: a category-button confirmation event from a user with no
pending proposal yields the `expired transaction` error and takes no further
action — the entire state (ledger, learned patterns, budget totals and
percentages) is returned unchanged. -/
theorem claim_C3 : ∀ (s : BotState) (nowM nowD : String) (cat : Text),
    s.pending = none →
    process_callback s nowM nowD (str "cat_" ++ cat) = (s, Output.expired) := by
  intro s nowM nowD cat hp
  rw [process_callback_cat]
  unfold confirmCategory
  rw [hp]

/-- Claim C3 witness: a concrete expired confirmation for a fresh user. -/
theorem claim_C3_witness :
    process_callback initialState "2025-10" "2025-10-12"
        (str "cat_" ++ str "Food") = (initialState, Output.expired) :=
  claim_C3 initialState "2025-10" "2025-10-12" (str "Food") rfl

theorem alookup_aset_self {β : Type} (m : List (Text × β)) (k : Text) (v : β) :
    alookup (aset m k v) k = some v := by
  induction m with
  | nil => simp [aset, alookup]
  | cons p rest ih =>
    by_cases h : p.1 = k <;> simp [aset, alookup, h, ih]

theorem alookup_aset_ne {β : Type} (m : List (Text × β)) (k k' : Text) (v : β)
    (h : k ≠ k') : alookup (aset m k v) k' = alookup m k' := by
  induction m with
  | nil => simp [aset, alookup, h]
  | cons p rest ih =>
    by_cases hp : p.1 = k
    · simp [aset, alookup, hp, h]
    · simp [aset, alookup, hp, ih]

theorem learnWords_lookup_aux : ∀ (ws : List Text) (m : List (Text × Text))
    (cat w : Text), (alookup m w = some cat ∨ w ∈ ws) →
    alookup (learnWords m ws cat) w = some cat := by
  intro ws
  induction ws with
  | nil =>
    intro m cat w h
    rcases h with h | h
    · exact h
    · cases h
  | cons k ws ih =>
    intro m cat w h
    show alookup (learnWords (aset m k cat) ws cat) w = some cat
    apply ih
    by_cases hwk : w = k
    · left; subst hwk; exact alookup_aset_self m w cat
    · rcases h with h | h
      · left
        rw [alookup_aset_ne m k w cat (fun hk => hwk hk.symm)]
        exact h
      · rcases List.mem_cons.mp h with h1 | h2
        · exact absurd h1 hwk
        · right; exact h2

theorem check_limits_learned (s : BotState) :
    (check_503020_limits s).1.learned = s.learned := by
  rcases h : s.monthlyPercentages with _ | cur <;> simp [check_503020_limits, h]

/-- The learned-patterns table after a confirmation: the learning step runs
exactly when the proposal's kind is `expense` and the chosen category differs
from the suggested one. -/
theorem confirmCategory_learned (s : BotState) (nowM nowD : String)
    (cat : Text) (p : PendingTx) (hp : s.pending = some p) :
    (confirmCategory s nowM nowD cat).1.learned =
      (if p.category ≠ cat ∧ p.ttype = TransType.expense
       then learnWords s.learned (extractWords p.text) cat
       else s.learned) := by
  unfold confirmCategory
  rw [hp]
  simp only
  rw [check_limits_learned]
  by_cases hty : p.ttype = TransType.income
  · rw [if_pos hty]
    unfold update_income_for_503020
    rfl
  · rw [if_neg hty]
    unfold update_503020_totals
    rfl

/-- Claim C5: when a user confirms a pending proposal of kind expense with a
category different from the suggested one, every alphabetic token of length
at least 3 in the proposal's raw text becomes mapped to the confirmed
category in the learned patterns, overwriting any prior mapping for that
exact word; confirming with the same suggested category, or confirming a
non-expense proposal, leaves the learned patterns unchanged. -/
theorem claim_C5 : ∀ (s : BotState) (nowM nowD : String) (cat : Text)
    (p : PendingTx), s.pending = some p →
    ((p.ttype = TransType.expense → p.category ≠ cat →
      ∀ w ∈ extractWords p.text,
        alookup (process_callback s nowM nowD (str "cat_" ++ cat)).1.learned w
          = some cat) ∧
     (p.ttype ≠ TransType.expense ∨ p.category = cat →
        (process_callback s nowM nowD (str "cat_" ++ cat)).1.learned
          = s.learned)) := by
  intro s nowM nowD cat p hp
  rw [process_callback_cat]
  rw [confirmCategory_learned s nowM nowD cat p hp]
  constructor
  · intro hty hne w hw
    rw [if_pos ⟨hne, hty⟩]
    exact learnWords_lookup_aux (extractWords p.text) s.learned cat w (Or.inr hw)
  · intro h
    rw [if_neg]
    rintro ⟨hne, hty⟩
    rcases h with h | h
    · exact h hty
    · exact hne h

/-- A pending expense proposal `coffee shop` with suggested category
`Other`. -/
def c5Pending : PendingTx := ⟨150, str "coffee shop", str "Other", TransType.expense⟩

/-- A user state holding the pending proposal `c5Pending`. -/
def c5State : BotState := {initialState with pending := some c5Pending}

/-- Claim C5 witness: confirming `coffee shop` (suggested `Other`, kind
expense) with `Food` maps the word `coffee` to `Food`. -/
theorem claim_C5_witness :
    alookup (process_callback c5State "2025-10" "2025-10-12"
        (str "cat_" ++ str "Food")).1.learned (str "coffee")
      = some (str "Food") :=
  (claim_C5 c5State "2025-10" "2025-10-12" (str "Food") c5Pending rfl).1
    rfl (by decide) (str "coffee") (by decide)

/-! ## Claim C9 -/

/-- A one-element ledger entry used by the delete-mode scenarios. -/
def c9Tx : Transaction :=
  ⟨1, 150, str "Food", str "150 lunch", TransType.expense, "2025-10-01"⟩

/-- A user in delete mode over a one-element ledger: display number 1 maps
to ledger index 0. -/
def c9State : BotState :=
  {initialState with transactions := [c9Tx], deleteMode := some [(1, 0)]}

/-- Claim C9 counterexample: in delete mode, the digit-only reply `5`, which
maps to no transaction, neither deletes anything nor exits the mode — the
state (including the still-active delete-mode map and the untouched ledger)
is returned unchanged with an invalid-number message, while the claim says
any digit-only reply other than `0` deletes and exits. -/
theorem claim_C9_counterexample :
    process_message c9State (str "5") = (c9State, Output.invalidNumber) ∧
      (process_message c9State (str "5")).1.deleteMode = some [(1, 0)] ∧
      (process_message c9State (str "5")).1.transactions = [c9Tx] := by
  refine ⟨?_, ?_, ?_⟩ <;> rfl

/-- Claim C9 (amended): while delete mode is active, a reply of `0` exits
the mode deleting nothing; a digit-only reply that maps to a valid
transaction deletes it (renumbering the remainder) and exits the mode
single-shot; a digit-only reply that maps to no display number, or to an
out-of-range index, reports an invalid number and leaves the mode active
with the ledger unchanged; any non-digit reply cancels the mode with the
ledger unchanged. -/
theorem claim_C9_amended : ∀ (s : BotState) (tmap : List (Nat × Nat))
    (text : Text), s.deleteMode = some tmap → tmap ≠ [] →
    ((text = str "0" →
        process_message s text = ({s with deleteMode := none}, Output.deleteExit)) ∧
     (pyIsDigit text = true → text ≠ str "0" →
       (∀ idx, List.lookup (natOfDigits text) tmap = some idx →
         (idx < s.transactions.length →
            (process_message s text).1.transactions =
                deleteTransaction s.transactions idx ∧
              (process_message s text).1.deleteMode = none) ∧
         (¬ idx < s.transactions.length →
            process_message s text = (s, Output.invalidNumber))) ∧
       (List.lookup (natOfDigits text) tmap = none →
          process_message s text = (s, Output.invalidNumber))) ∧
     (pyIsDigit text = false →
        process_message s text =
          ({s with deleteMode := none}, Output.deleteCancelled))) := by
  intro s tmap text hdel hne
  have hred : process_message s text = deleteModeHandling s tmap text := by
    simp only [process_message, hdel]
    rw [if_neg]
    simpa [List.isEmpty_iff] using hne
  refine ⟨fun h0 => ?_, fun hdig hn0 => ⟨fun idx hidx => ⟨fun hlt => ?_, fun hge => ?_⟩,
    fun hnone => ?_⟩, fun hnd => ?_⟩
  · rw [hred]
    unfold deleteModeHandling
    rw [if_pos (by rw [h0]; decide), if_pos h0]
  · rw [hred]
    unfold deleteModeHandling
    rw [if_pos hdig, if_neg hn0, hidx]
    simp only [if_pos hlt]
    exact ⟨trivial, trivial⟩
  · rw [hred]
    unfold deleteModeHandling
    rw [if_pos hdig, if_neg hn0, hidx]
    simp only [if_neg hge]
  · rw [hred]
    unfold deleteModeHandling
    rw [if_pos hdig, if_neg hn0, hnone]
  · rw [hred]
    unfold deleteModeHandling
    rw [if_neg]
    rw [hnd]
    exact Bool.false_ne_true

/-- Claim C9 witness: `0` exits delete mode without deleting, and the mapped
digit `1` deletes the only transaction and exits, through the amended
theorem. -/
theorem claim_C9_witness :
    process_message c9State (str "0") =
        ({c9State with deleteMode := none}, Output.deleteExit) ∧
      (process_message c9State (str "1")).1.transactions =
          deleteTransaction c9State.transactions 0 ∧
      (process_message c9State (str "1")).1.deleteMode = none := by
  have h0 := (claim_C9_amended c9State [(1, 0)] (str "0") rfl (by decide)).1 rfl
  have h1 := (((claim_C9_amended c9State [(1, 0)] (str "1") rfl
    (by decide)).2.1 (by decide) (by decide)).1 0 (by decide)).1 (by decide)
  exact ⟨h0, h1.1, h1.2⟩

/-! ## Claim C2 -/

/-- Claim C2, evaluated at the failing input: for a fresh user (no delete
mode, no pending income), the text `-200 loan` — the debt syntax advertised
by the bot's own welcome and help messages — contains an arithmetic operator
and a digit, so it is routed to `calculate_expression`, whose character
whitelist rejects the letters; the handler answers with the calculation
error and returns, leaving the state unchanged and never reaching
`extract_amount`, so no pending debt proposal is created. -/
theorem claim_C2_failing_input :
    process_message initialState (str "-200 loan") =
        (initialState, Output.calcError) ∧
      (process_message initialState (str "-200 loan")).1.pending = none ∧
      calculate_expression (str "-200 loan") = none := by
  exact ⟨rfl, rfl, rfl⟩

/-! ## Claim C1 -/

theorem deleteModeHandling_pending (s : BotState) (tmap : List (Nat × Nat))
    (text : Text) : (deleteModeHandling s tmap text).1.pending = s.pending := by
  unfold deleteModeHandling
  split
  · split
    · rfl
    · split
      · split <;> rfl
      · rfl
  · rfl

theorem afterCategoryBranches_pending_cases (s : BotState) (text : Text) :
    (afterCategoryBranches s text).1.pending = s.pending ∨
      afterCategoryBranches s text = transactionProcessing s text := by
  unfold afterCategoryBranches
  by_cases hp : s.pendingIncome = true
  · rw [if_pos hp]
    left
    rcases pyFloat? text with _ | v
    · rfl
    · by_cases hv : v ≤ 0
      · simp [if_pos hv]
      · simp [if_neg hv]
  · rw [if_neg hp]
    right
    rfl

theorem normalProcessing_pending_cases (s : BotState) (text : Text) :
    (normalProcessing s text).1.pending = s.pending ∨
      normalProcessing s text = transactionProcessing s text := by
  unfold normalProcessing
  by_cases h1 : text = str "/start"
  · rw [if_pos h1]; left; rfl
  rw [if_neg h1]
  by_cases h2 : text = str "🌍 Language"
  · rw [if_pos h2]; left; rfl
  rw [if_neg h2]
  by_cases h3 : text = str "🔄 Restart Bot" ∨ text = str "🔄 Перезапустити бота"
  · rw [if_pos h3]; left; rfl
  rw [if_neg h3]
  by_cases h4 : text = str "/income"
  · rw [if_pos h4]; left; rfl
  rw [if_neg h4]
  by_cases h5 : text = str "/help"
  · rw [if_pos h5]; left; rfl
  rw [if_neg h5]
  by_cases h6 : text = str "📊 Financial Summary"
  · rw [if_pos h6]
    left
    by_cases he : s.transactions.isEmpty = true
    · rw [if_pos he]
    · rw [if_neg he]
  rw [if_neg h6]
  by_cases h7 : text = str "📊 50/30/20 Status"
  · rw [if_pos h7]; left; rfl
  rw [if_neg h7]
  by_cases h8 : text = str "🗑️ Delete Transaction"
  · rw [if_pos h8]
    left
    by_cases he : s.transactions.isEmpty = true
    · rw [if_pos he]
    · rw [if_neg he]
  rw [if_neg h8]
  by_cases h9 : text = str "🏷️ Manage Categories"
  · rw [if_pos h9]; left; rfl
  rw [if_neg h9]
  by_cases h10 : (startsWithChar '+' text && decide (1 < text.length)
      && !((text.drop 1).any Char.isDigit)) = true
  · rw [if_pos h10]
    left
    rcases hA : add_user_category s.categories (pyStrip (text.drop 1))
        with ⟨b, table⟩
    simp only [hA]
    cases b <;> rfl
  rw [if_neg h10]
  by_cases h11 : (startsWithChar '-' text && decide (1 < text.length)
      && !((text.drop 1).any Char.isDigit)) = true
  · rw [if_pos h11]
    left
    rcases hR : remove_user_category s.categories (pyStrip (text.drop 1))
        with ⟨b, table⟩
    simp only [hR]
    cases b <;> rfl
  rw [if_neg h11]
  exact afterCategoryBranches_pending_cases s text

theorem process_message_pending_cases (s : BotState) (text : Text) :
    (process_message s text).1.pending = s.pending ∨
      process_message s text = transactionProcessing s text := by
  unfold process_message
  split
  · rename_i tmap heq
    split
    · exact normalProcessing_pending_cases s text
    · left; exact deleteModeHandling_pending s tmap text
  · exact normalProcessing_pending_cases s text

theorem containsChar_of_containsPair (t : Text)
    (h : containsPair '+' '+' t = true) : containsChar t '+' = true := by
  induction t with
  | nil => simp [containsPair] at h
  | cons c rest ih =>
    cases rest with
    | nil => simp [containsPair] at h
    | cons d rest2 =>
      simp only [containsPair, Bool.or_eq_true, Bool.and_eq_true,
        decide_eq_true_eq] at h
      rcases h with ⟨hc, _⟩ | h
      · simp [containsChar, hc]
      · have := ih h
        simp only [containsChar, List.any_cons, Bool.or_eq_true] at this ⊢
        right
        exact this

theorem calculate_expression_ttype (text : Text) (a : ℚ) (ty : TransType)
    (h : calculate_expression text = some (a, ty)) : ty = calcTransType text := by
  unfold calculate_expression at h
  dsimp only at h
  split at h
  · cases h
  · split at h
    · cases h
    · simp only [Option.some.injEq, Prod.mk.injEq] at h
      exact h.2.symm

theorem extract_amount_is_savings (t : Text) :
    (extract_amount t).is_savings = containsPair '+' '+' t := rfl

theorem extract_amount_is_income_false (t : Text)
    (h : containsPair '+' '+' t = true) :
    (extract_amount t).is_income = false := by
  simp [extract_amount, h]

theorem transactionProcessing_plusplus (s : BotState) (text : Text)
    (h : containsPair '+' '+' text = true) :
    ((transactionProcessing s text).1.pending = s.pending ∨
      ∃ p, (transactionProcessing s text).1.pending = some p ∧
        p.ttype ≠ TransType.income) ∧
    (text.any Char.isDigit = true →
      (transactionProcessing s text).1.pending = s.pending ∨
        ∃ p, (transactionProcessing s text).1.pending = some p ∧
          p.ttype = TransType.savings) := by
  have hplus := containsChar_of_containsPair text h
  by_cases hdig : text.any Char.isDigit = true
  · have hcond : ((containsChar text '+' || containsChar text '-'
        || containsChar text '*' || containsChar text '/'
        || containsChar text '%') && text.any Char.isDigit) = true := by
      simp [hplus, hdig]
    unfold transactionProcessing
    rw [if_pos hcond]
    rcases hc : calculate_expression text with _ | ⟨a, ty⟩
    · simp only [hc]
      exact ⟨Or.inl trivial, fun _ => Or.inl trivial⟩
    · have hty : ty = calcTransType text := calculate_expression_ttype text a ty hc
      have hsav : calcTransType text = TransType.savings := by
        simp [calcTransType, h]
      simp only [hc, hty, hsav]
      refine ⟨Or.inr ⟨_, rfl, ?_⟩, fun _ => Or.inr ⟨_, rfl, ?_⟩⟩
      · simp
      · rfl
  · have hcond : ¬ (((containsChar text '+' || containsChar text '-'
        || containsChar text '*' || containsChar text '/'
        || containsChar text '%') && text.any Char.isDigit) = true) := by
      simp only [Bool.and_eq_true, not_and]
      intro _
      simpa using hdig
    unfold transactionProcessing
    rw [if_neg hcond]
    refine ⟨?_, fun hd => absurd hd hdig⟩
    dsimp only
    rcases ha : (extract_amount text).amount with _ | amount
    · simp only [ha]
      exact Or.inl trivial
    · simp only [ha]
      by_cases h1 : (extract_amount text).is_debt_return = true
      · simp only [if_pos h1]
        refine Or.inr ⟨_, rfl, ?_⟩
        simp
      · simp only [if_neg h1]
        by_cases h2 : (extract_amount text).is_savings_withdraw = true
        · simp only [if_pos h2]
          refine Or.inr ⟨_, rfl, ?_⟩
          simp
        · simp only [if_neg h2]
          by_cases h3 : (extract_amount text).is_debt = true
          · simp only [if_pos h3]
            refine Or.inr ⟨_, rfl, ?_⟩
            simp
          · simp only [if_neg h3]
            have h4 : (extract_amount text).is_savings = true := by
              rw [extract_amount_is_savings]; exact h
            simp only [if_pos h4]
            exact Or.inl trivial

/-- Claim C1 counterexample: the input text `" ++-inf"` contains the marker
`++`, yet processing it (fresh user) stores a pending proposal of kind
`debt_return`: the text has no decimal digit, so the calculation path is
skipped and `extract_amount` reaches its `float()` fallback, which accepts
the special literal `inf` after the signs are stripped; the message handler
then checks the `+-` flag before the `++` flag.  The claim says the derived
kind is never `debt_return`. -/
theorem claim_C1_counterexample :
    containsPair '+' '+' (str " ++-inf") = true ∧
      (process_message initialState (str " ++-inf")).1.pending.map
          PendingTx.ttype = some TransType.debt_return ∧
      TransType.debt_return ≠ TransType.savings := by
  exact ⟨rfl, rfl, by decide⟩

/-- Claim C1 (amended): for every user state and every input text containing
the marker `++`, the processed message never records a pending proposal of
kind `income`; and when the text also contains a decimal digit — the case of
every well-formed amount — any newly recorded pending proposal has kind
`savings`, because such texts are routed to the calculation path whose
marker priority tests `++` first (`++`, then `+-`, then `-+`, then leading
`-`, then single `+`, else expense).  Only digit-free texts whose cleaned
remainder parses as a Python float special literal (`inf`/`nan`) can reach
the message path's flag order, where `debt_return` and `savings_withdraw`
are tested before `savings`. -/
theorem claim_C1_amended : ∀ (s : BotState) (text : Text),
    containsPair '+' '+' text = true →
    (((process_message s text).1.pending = s.pending) ∨
      ∃ p, (process_message s text).1.pending = some p ∧
        p.ttype ≠ TransType.income) ∧
    (text.any Char.isDigit = true →
      ((process_message s text).1.pending = s.pending) ∨
        ∃ p, (process_message s text).1.pending = some p ∧
          p.ttype = TransType.savings) := by
  intro s text h
  rcases process_message_pending_cases s text with hu | he
  · exact ⟨Or.inl hu, fun _ => Or.inl hu⟩
  · rw [he]
    exact transactionProcessing_plusplus s text h

/-- Claim C1 witness: the text `++50` yields a pending savings proposal. -/
theorem claim_C1_witness :
    (process_message initialState (str "++50")).1.pending =
        initialState.pending ∨
      ∃ p, (process_message initialState (str "++50")).1.pending = some p ∧
        p.ttype = TransType.savings :=
  (claim_C1_amended initialState (str "++50") (by decide)).2 (by decide)

end FinnBot
